import Mathlib

/-!
# Connection latency monitoring: a shallow embedding

This file embeds the connection latency monitoring subsystem
(`lib/utils/diagnostics/latency/monitor.go` and the threshold
classification helper `latencyColors` from the web UI) and proves
properties of the embedded definitions.

Conventions of the embedding:
* Go `time.Duration` and `time.Time` are modelled as `Int` nanoseconds
  (Go stores both as 64-bit nanosecond counts; no arithmetic here comes
  close to overflowing 2^63, so plain `Int` is used).
* Go `Duration.Milliseconds()` divides by 10^6 with Go's `/`, which
  truncates toward zero; this is `Int.tdiv`.
* Interface-typed dependencies (`Pinger`, `Reporter`, `clockwork.Clock`)
  are opaque type parameters `P`, `R`, `C`; `nil` interface values are
  `Option`.
* The goroutines spawned by `Monitor.Run` and the `select`-based
  channel operations are modelled as a labelled transition system: each
  `select` arm that can fire is an event, and the capacity-1 channels
  `clientC`/`serverC` are one-slot buffers (`Option Int`).
-/

namespace Latency

/-! ## Threshold classification (`latencyColors`,
`web/packages/shared/components/LatencyDiagnostic/LatencyDiagnostic.tsx`) -/

/-- `warnThreshold = 150` from the source. -/
def warnThreshold : Nat := 150

/-- `errorThreshold = 400` from the source. -/
def errorThreshold : Nat := 400

/-- The three color buckets of `enum latencyColor` (the actual color
strings are irrelevant to the logic; only the three-way distinction is). -/
inductive latencyColor
  | ok
  | warn
  | error
deriving DecidableEq, Repr

/-- The anonymous record type returned by `latencyColors`. -/
structure LatencyColors where
  client : latencyColor
  server : latencyColor
  total : latencyColor
deriving DecidableEq, Repr

/-- Inner helper `colorForLatency` of `latencyColors`. -/
def colorForLatency (l : Nat) : latencyColor :=
  if l ≥ errorThreshold then .error
  else if l ≥ warnThreshold then .warn
  else .ok

/-- `latencyColors(client, server)` from the source, restricted to the
non-negative integers (the spec's domain). The branch structure mirrors
the source: `any + red = red`, `yellow + yellow = yellow`,
`green + yellow = yellow`, `green + green = green`. -/
def latencyColors (client server : Nat) : LatencyColors :=
  let clientColor := colorForLatency client
  let serverColor := colorForLatency server
  if client ≥ errorThreshold ∨ server ≥ errorThreshold then
    ⟨clientColor, serverColor, .error⟩
  else if client ≥ warnThreshold ∧ server ≥ warnThreshold then
    ⟨clientColor, serverColor, .warn⟩
  else if (client ≥ warnThreshold ∨ server ≥ warnThreshold) ∧
      (client < warnThreshold ∨ server < warnThreshold) then
    ⟨clientColor, serverColor, .warn⟩
  else
    ⟨clientColor, serverColor, .ok⟩

/-! ## Durations and the stored measurement -/

/-- Go `time.Second` in nanoseconds. -/
def timeSecond : Int := 1000000000

/-- Go `time.Millisecond` in nanoseconds. -/
def timeMillisecond : Int := 1000000

/-- Go `time.Duration.Milliseconds()`: integer division by 10^6,
truncating toward zero (Go's `/` on int64). -/
def durationMilliseconds (d : Int) : Int := d.tdiv 1000000

/-! ## Statistics, configuration, constructor
(`monitor.go` lines 34-175) -/

/-- `Statistics` from `monitor.go`: latest round-trip time of each leg in
milliseconds (`int64` fields written/read atomically). -/
structure Statistics where
  Client : Int
  Server : Int
deriving DecidableEq, Repr

/-- `MonitorConfig` from `monitor.go`. `P`, `R`, `C` stand for the
interface types `Pinger`, `Reporter` and `clockwork.Clock`; a `none`
models a `nil` interface field. Intervals are nanosecond durations. -/
structure MonitorConfig (P R C : Type) where
  ClientPinger : Option P
  ServerPinger : Option P
  Reporter : Option R
  Clock : Option C
  PingInterval : Int
  ReportInterval : Int
deriving DecidableEq, Repr

/-- `MonitorConfig.CheckAndSetDefaults` from `monitor.go`: reject a
missing `ClientPinger`, `ServerPinger` or `Reporter`; default a
non-positive `PingInterval` to 8s and a non-positive `ReportInterval`
to 10s; default a missing `Clock` to the real clock. Go mutates the
receiver; the embedding returns the updated record. `realClock` stands
for `clockwork.NewRealClock()`. -/
def CheckAndSetDefaults {P R C : Type} (realClock : C) (c : MonitorConfig P R C) :
    Except String (MonitorConfig P R C) :=
  if c.ClientPinger.isNone then
    .error "client pinger not provided to MonitorConfig"
  else if c.ServerPinger.isNone then
    .error "server pinger not provided to MonitorConfig"
  else if c.Reporter.isNone then
    .error "reporter not provided to MonitorConfig"
  else
    .ok { c with
      PingInterval := if c.PingInterval ≤ 0 then 8 * timeSecond else c.PingInterval
      ReportInterval := if c.ReportInterval ≤ 0 then 10 * timeSecond else c.ReportInterval
      Clock := some (c.Clock.getD realClock) }

/-- `Monitor` from `monitor.go`. The `ticker` field
(`interval.MultiInterval`, a package not part of this excerpt) is not
stored; its tick stream is modelled by the run-loop events below. The
two `atomic.Int64` latency fields start at Go's zero value. -/
structure Monitor (P R C : Type) where
  clientPinger : P
  serverPinger : P
  reporter : R
  clock : C
  clientLatency : Int
  serverLatency : Int
deriving DecidableEq, Repr

/-- `NewMonitor` from `monitor.go`: validate the configuration and
return an unstarted monitor with zeroed latency fields. The final
catch-all branch is unreachable (the checked configuration always has
all three dependencies present); it is kept so that the embedding makes
no silent assumption and is proved dead in the theorems. -/
def NewMonitor {P R C : Type} (realClock : C) (cfg : MonitorConfig P R C) :
    Except String (Monitor P R C) :=
  match CheckAndSetDefaults realClock cfg with
  | .error e => .error e
  | .ok c =>
    match c.ClientPinger, c.ServerPinger, c.Reporter, c.Clock with
    | some cp, some sp, some r, some clk =>
      .ok { clientPinger := cp, serverPinger := sp, reporter := r, clock := clk,
            clientLatency := 0, serverLatency := 0 }
    | _, _, _, _ => .error "unreachable"

/-- `Monitor.GetStats` from `monitor.go`: a freshly constructed
`Statistics` value holding atomic loads of the two latency fields. Go
returns the struct by value, so the caller receives a copy. -/
def Monitor.GetStats {P R C : Type} (m : Monitor P R C) : Statistics :=
  { Client := m.clientLatency, Server := m.serverLatency }

/-- A caller of `GetStats` transforming its returned copy `f` while the
monitor value itself flows on unchanged; models that the snapshot is a
copy, not a reference into the monitor. -/
def mutateSnapshot {P R C : Type} (m : Monitor P R C) (f : Statistics → Statistics) :
    Statistics × Monitor P R C :=
  (f m.GetStats, m)

/-! ## The `pingLoop` goroutine (`monitor.go` lines 217-229) -/

/-- Outcome of one `pinger.Ping(ctx)` call, together with the clock
reading `m.clock.Now()` taken when it returns successfully. -/
inductive PingResult
  | failed
  | succeeded (now : Int)
deriving DecidableEq, Repr

/-- The event one iteration of `pingLoop`'s `select` observes: either
the context's done channel is ready, or a tick timestamp `then` is
received from the ping channel and the `Ping` call completes with the
given result. -/
inductive PingLoopEvent
  | ctxDone
  | signal (tickTime : Int) (result : PingResult)
deriving DecidableEq, Repr

/-- One iteration of the `for { select { ... } }` body of
`Monitor.pingLoop`, as written in the source. Returns the updated value
of the leg's atomic latency field and whether the loop exits after this
iteration. Note the `<-ctx.Done()` case of the source has an empty
body — no `return` statement — so the `for` loop continues; a failed
ping only logs a warning and leaves the stored value untouched; a
successful ping stores `clock.Now().Sub(then).Milliseconds()`. -/
def pingLoopIter (latency : Int) : PingLoopEvent → Int × Bool
  | .ctxDone => (latency, false)
  | .signal tickTime r =>
    match r with
    | .failed => (latency, false)
    | .succeeded now => (durationMilliseconds (now - tickTime), false)

/-! ## The run loop and both measurement goroutines as a transition
system (`Monitor.Run`, `monitor.go` lines 179-215, together with the
two `pingLoop` goroutines it spawns) -/

/-- Phase of one measurement goroutine: parked in its `select` waiting
for a signal, or inside `pinger.Ping` for the tick stamped `tickTime`. -/
inductive TaskPhase
  | idle
  | busy (tickTime : Int)
deriving DecidableEq, Repr

/-- One leg of the monitor: the capacity-1 signal channel
(`clientC` / `serverC`) as a one-slot buffer, the phase of the leg's
`pingLoop` goroutine, and the leg's atomic latency field. -/
structure LegState where
  buffer : Option Int
  phase : TaskPhase
  latency : Int
deriving DecidableEq, Repr

/-- Initial leg state: empty channel, goroutine waiting, latency zero. -/
def LegState.init : LegState := ⟨none, .idle, 0⟩

/-- The non-blocking send
`select { case c <- tick.Time: ... default: }` performed by `Run` on a
ping tick, into a capacity-1 channel: the tick timestamp is queued when
the buffer is empty and dropped (state unchanged) when the buffer
already holds an undelivered tick. -/
def legDeliver (s : LegState) (tickTime : Int) : LegState :=
  match s.buffer with
  | none => { s with buffer := some tickTime }
  | some _ => s

/-- The leg's `pingLoop` goroutine receives a pending tick from its
channel (`case then := <-pingC`) and enters `pinger.Ping`. Only enabled
when the goroutine is idle and a tick is buffered. -/
def legPickup (s : LegState) : LegState :=
  match s.phase, s.buffer with
  | .idle, some t => { s with buffer := none, phase := .busy t }
  | _, _ => s

/-- The leg's in-flight `pinger.Ping` call returns: on failure the
stored value is untouched (only a warning is logged); on success the
elapsed time from the tick timestamp to `clock.Now()` is stored in
milliseconds. -/
def legFinish (s : LegState) (r : PingResult) : LegState :=
  match s.phase with
  | .busy tickTime =>
    match r with
    | .failed => { s with phase := .idle }
    | .succeeded now => { s with phase := .idle, latency := durationMilliseconds (now - tickTime) }
  | .idle => s

/-- Combined state of the two legs (the only state `Run` and the two
`pingLoop` goroutines mutate). -/
structure RunState where
  client : LegState
  server : LegState
deriving DecidableEq, Repr

/-- Initial state right after `Run` spawns the two goroutines. -/
def RunState.init : RunState := ⟨LegState.init, LegState.init⟩

/-- The snapshot `Run` passes to the reporter: `m.GetStats()` reads the
two atomic latency fields. -/
def RunState.stats (s : RunState) : Statistics :=
  { Client := s.client.latency, Server := s.server.latency }

/-- The two tick keys of the `interval.MultiInterval` ticker
(`pingKey = "ping-ticker"`, `reportingKey = "reporting-ticker"`). -/
inductive TickKey
  | pingKey
  | reportingKey
deriving DecidableEq, Repr

/-- What one iteration of `Run`'s outer `select` observes: a tick from
the ticker (with its key and timestamp), or the context's done channel. -/
inductive RunLoopEvent
  | tick (key : TickKey) (time : Int)
  | ctxDone
deriving DecidableEq, Repr

/-- Whether the `Run` loop continues or executes `return`. -/
inductive LoopControl
  | continueLoop
  | returnFromRun
deriving DecidableEq, Repr

/-- One iteration of `Monitor.Run`'s outer `select` loop, as written in
the source. `reportErr` is the value returned by `reporter.Report`
(an oracle: the reporter is external); the source only inspects it to
log a warning. Returns the updated state, the list of snapshots passed
to the reporter during this iteration, and whether `Run` returns.
A ping tick performs the two non-blocking sends, client first then
server; a report tick calls `reporter.Report(ctx, m.GetStats())`;
`ctx.Done()` returns from `Run`. -/
def runIter (s : RunState) (ev : RunLoopEvent) (reportErr : Option String) :
    RunState × List Statistics × LoopControl :=
  match ev with
  | .ctxDone => (s, [], .returnFromRun)
  | .tick .pingKey t =>
    ({ client := legDeliver s.client t, server := legDeliver s.server t }, [], .continueLoop)
  | .tick .reportingKey _ =>
    match reportErr with
    | some _ => (s, [s.stats], .continueLoop)
    | none => (s, [s.stats], .continueLoop)

/-- An event of the whole system: one iteration of the `Run` loop
(with the reporter outcome it observes), or a step of one of the two
`pingLoop` goroutines. -/
inductive SysEvent
  | run (ev : RunLoopEvent) (reportErr : Option String)
  | clientPickup
  | clientFinish (r : PingResult)
  | serverPickup
  | serverFinish (r : PingResult)

/-- State transition of the whole system for one event. -/
def sysStep (s : RunState) : SysEvent → RunState
  | .run ev reportErr => (runIter s ev reportErr).1
  | .clientPickup => { s with client := legPickup s.client }
  | .clientFinish r => { s with client := legFinish s.client r }
  | .serverPickup => { s with server := legPickup s.server }
  | .serverFinish r => { s with server := legFinish s.server r }

/-- States reachable from the initial state by any interleaving of
run-loop iterations and goroutine steps. -/
inductive Reachable : RunState → Prop
  | init : Reachable RunState.init
  | step {s : RunState} (ev : SysEvent) : Reachable s → Reachable (sysStep s ev)

/-- A successful ping observed a clock reading not before its tick
timestamp (the monotonic-clock assumption); failures and run-loop
events are unconstrained. -/
def MonotoneEvent (s : RunState) : SysEvent → Prop
  | .clientFinish (.succeeded now) => ∀ t, s.client.phase = .busy t → t ≤ now
  | .serverFinish (.succeeded now) => ∀ t, s.server.phase = .busy t → t ≤ now
  | _ => True

/-- Reachability when every successful ping satisfies the
monotonic-clock assumption. -/
inductive MReachable : RunState → Prop
  | init : MReachable RunState.init
  | step {s : RunState} (ev : SysEvent) : MReachable s → MonotoneEvent s ev →
      MReachable (sysStep s ev)

/-! ## The WebSocket pinger (`WebSocketPinger.Ping`,
`monitor.go` lines 318-338) -/

/-- What one iteration of `WebSocketPinger.Ping`'s wait loop observes:
a pong payload delivered on `pongC`, or the context's done channel. -/
inductive PongEvent
  | pong (payload : String)
  | cancelled
deriving DecidableEq, Repr

/-- Result of a completed `WebSocketPinger.Ping` call. -/
inductive PingOutcome
  | success
  | cancelledErr
deriving DecidableEq, Repr

/-- The `for { select { ... } }` wait loop of `WebSocketPinger.Ping`,
run over the sequence of events its `select` observes. `token` is the
fresh `uuid.NewString()` payload generated at the start of this call.
A pong equal to the token returns `nil` (success); a different pong is
discarded and the loop continues; a done context returns `ctx.Err()`.
`none` means the event sequence was exhausted with the call still
blocked waiting. -/
def pingWait (token : String) : List PongEvent → Option PingOutcome
  | [] => none
  | .pong p :: rest => if p = token then some .success else pingWait token rest
  | .cancelled :: _ => some .cancelledErr

/-! ## Auxiliary definitions used in the statements below -/

/-- Whether a constructor/validator result is the error branch
(a non-nil `error` return in Go). -/
def isError {ε α : Type} : Except ε α → Bool
  | .error _ => true
  | .ok _ => false

/-- A concrete reachable state of the run system: after one ping tick
and the client leg picking it up, the client leg is busy with its
channel empty, while the server leg still has the tick queued. -/
def busyWithEmptyBuffer : RunState :=
  sysStep (sysStep RunState.init (.run (.tick .pingKey 1) none)) .clientPickup

/-- A sample configuration (over trivial dependency types) with the
client pinger missing. -/
def cfgMissingClient : MonitorConfig Unit Unit Unit :=
  { ClientPinger := none, ServerPinger := some (), Reporter := some (),
    Clock := none, PingInterval := -5, ReportInterval := 0 }

/-- A sample complete configuration (over trivial dependency types)
with non-positive intervals and no clock supplied. -/
def cfgComplete : MonitorConfig Unit Unit Unit :=
  { ClientPinger := some (), ServerPinger := some (), Reporter := some (),
    Clock := none, PingInterval := -5, ReportInterval := 0 }

/-- The monitor `NewMonitor` builds from `cfgComplete`. -/
def monitorZero : Monitor Unit Unit Unit :=
  { clientPinger := (), serverPinger := (), reporter := (), clock := (),
    clientLatency := 0, serverLatency := 0 }

end Latency

namespace Latency

/-! ## Theorems -/

/-- C3: `latencyColors` classifies each leg as warn iff it lies in
[150, 400) and error iff it is ≥ 400, ok otherwise; the total is error
iff either leg is ≥ 400, warn iff either leg is ≥ 150 and neither is
≥ 400 (in particular warn, not error, when both legs are in [150, 400)),
and ok otherwise. Totality on all non-negative inputs is inherent: the
embedding is a total Lean function on `Nat`. -/
theorem latencyColors_classification (client server : Nat) :
    ((latencyColors client server).client = .error ↔ 400 ≤ client) ∧
    ((latencyColors client server).client = .warn ↔ 150 ≤ client ∧ client < 400) ∧
    ((latencyColors client server).client = .ok ↔ client < 150) ∧
    ((latencyColors client server).server = .error ↔ 400 ≤ server) ∧
    ((latencyColors client server).server = .warn ↔ 150 ≤ server ∧ server < 400) ∧
    ((latencyColors client server).server = .ok ↔ server < 150) ∧
    ((latencyColors client server).total = .error ↔ 400 ≤ client ∨ 400 ≤ server) ∧
    ((latencyColors client server).total = .warn ↔
      (150 ≤ client ∨ 150 ≤ server) ∧ client < 400 ∧ server < 400) ∧
    ((latencyColors client server).total = .ok ↔ client < 150 ∧ server < 150) := by
  unfold latencyColors colorForLatency warnThreshold errorThreshold
  split_ifs <;> simp_all <;> omega

/-- A non-negative duration has a non-negative millisecond count. -/
theorem durationMilliseconds_nonneg {d : Int} (h : 0 ≤ d) :
    0 ≤ durationMilliseconds d :=
  Int.tdiv_nonneg h (by norm_num)

/-- A non-negative duration has millisecond count zero exactly when it
is under one millisecond. -/
theorem durationMilliseconds_eq_zero_iff {d : Int} (h : 0 ≤ d) :
    durationMilliseconds d = 0 ↔ d < 1000000 := by
  unfold durationMilliseconds
  rw [Int.tdiv_eq_ediv h (by norm_num)]
  constructor
  · intro h0
    by_contra hge
    push_neg at hge
    have h1 : (1 : Int) ≤ d / 1000000 :=
      (Int.le_ediv_iff_mul_le (by norm_num)).2 (by omega)
    omega
  · intro hlt
    exact Int.ediv_eq_zero_of_lt h hlt

/-- Delivering a tick to a leg's channel does not touch its latency. -/
theorem legDeliver_latency (s : LegState) (t : Int) :
    (legDeliver s t).latency = s.latency := by
  unfold legDeliver
  cases s.buffer <;> rfl

/-- A leg picking up a tick does not touch its latency. -/
theorem legPickup_latency (s : LegState) :
    (legPickup s).latency = s.latency := by
  unfold legPickup
  cases s.phase <;> cases s.buffer <;> rfl

/-- A failed ping does not touch the leg's latency. -/
theorem legFinish_failed_latency (s : LegState) :
    (legFinish s .failed).latency = s.latency := by
  unfold legFinish
  cases s.phase <;> rfl

/-- C1: the `<-ctx.Done()` case of `Monitor.pingLoop` has an empty body
(no `return`), so an iteration that observes the cancelled context does
not exit the loop — no iteration ever exits — while `Monitor.Run`'s own
`select` does return on `ctx.Done()`. This refutes the claimed exit of
the measurement tasks: after cancellation both `pingLoop` goroutines
keep looping (and can still call `pinger.Ping` on a buffered tick), so
the code, not the claim, is at fault. -/
theorem pingLoop_never_exits :
    (pingLoopIter 0 .ctxDone).2 = false ∧
    (∀ (latency : Int) (ev : PingLoopEvent), (pingLoopIter latency ev).2 = false) ∧
    runIter RunState.init .ctxDone none = (RunState.init, [], .returnFromRun) := by
  refine ⟨rfl, ?_, rfl⟩
  intro latency ev
  cases ev with
  | ctxDone => rfl
  | signal tickTime r => cases r <;> rfl

/-- C5 counterexample: a successful ping completing 500µs after its tick
timestamp — with a monotonic clock, `0 ≤ 500000` — stores
`(500000 ns).Milliseconds() = 0` into a leg whose previous value was 42:
a successful measurement can store zero, so a stored zero is not
reserved for the never-measured state. -/
theorem successful_measurement_stores_zero :
    (0 : Int) ≤ 500000 ∧
    (legFinish ⟨none, .busy 0, 42⟩ (.succeeded 500000)).latency = 0 := by
  exact ⟨by norm_num, by decide⟩

/-- C5 (amended): in every reachable state under the monotonic-clock
assumption both stored latency values are non-negative; a successful
measurement stores a non-negative value, and it stores zero exactly
when the measured round trip was shorter than one millisecond (the
stored `Milliseconds()` truncates) — so zero is not exclusive to the
initial never-measured state. -/
theorem stored_latency_nonneg (s : RunState) (tickTime now prev : Int)
    (buf : Option Int) (hs : MReachable s) (hmono : tickTime ≤ now) :
    (0 ≤ s.client.latency ∧ 0 ≤ s.server.latency) ∧
    0 ≤ (legFinish ⟨buf, .busy tickTime, prev⟩ (.succeeded now)).latency ∧
    ((legFinish ⟨buf, .busy tickTime, prev⟩ (.succeeded now)).latency = 0 ↔
      now - tickTime < timeMillisecond) := by
  refine ⟨?_, ?_, ?_⟩
  · induction hs with
    | init => exact ⟨le_refl 0, le_refl 0⟩
    | step ev hprev hm ih =>
      rename_i s'
      cases ev with
      | run rev re =>
        cases rev with
        | ctxDone => simpa [sysStep, runIter] using ih
        | tick key t =>
          cases key with
          | pingKey =>
            simp only [sysStep, runIter]
            rw [legDeliver_latency, legDeliver_latency]
            exact ih
          | reportingKey => cases re <;> simpa [sysStep, runIter] using ih
      | clientPickup =>
        simp only [sysStep]
        rw [legPickup_latency]
        exact ih
      | serverPickup =>
        simp only [sysStep]
        rw [legPickup_latency]
        exact ih
      | clientFinish r =>
        cases r with
        | failed =>
          simp only [sysStep]
          rw [legFinish_failed_latency]
          exact ih
        | succeeded nowr =>
          simp only [sysStep]
          refine ⟨?_, ih.2⟩
          cases hp : s'.client.phase with
          | idle => simp only [legFinish, hp]; exact ih.1
          | busy tb =>
            have hle : tb ≤ nowr := hm tb hp
            simp only [legFinish, hp]
            exact durationMilliseconds_nonneg (by omega)
      | serverFinish r =>
        cases r with
        | failed =>
          simp only [sysStep]
          rw [legFinish_failed_latency]
          exact ih
        | succeeded nowr =>
          simp only [sysStep]
          refine ⟨ih.1, ?_⟩
          cases hp : s'.server.phase with
          | idle => simp only [legFinish, hp]; exact ih.2
          | busy tb =>
            have hle : tb ≤ nowr := hm tb hp
            simp only [legFinish, hp]
            exact durationMilliseconds_nonneg (by omega)
  · exact durationMilliseconds_nonneg (by omega)
  · show durationMilliseconds (now - tickTime) = 0 ↔ now - tickTime < timeMillisecond
    unfold timeMillisecond
    exact durationMilliseconds_eq_zero_iff (by omega)

/-- Witness for `stored_latency_nonneg` at the initial state and a
2.5ms successful measurement. -/
theorem stored_latency_nonneg_witness :
    ((0 ≤ RunState.init.client.latency ∧ 0 ≤ RunState.init.server.latency) ∧
      0 ≤ (legFinish ⟨none, .busy 0, 7⟩ (.succeeded 2500000)).latency ∧
      ((legFinish ⟨none, .busy 0, 7⟩ (.succeeded 2500000)).latency = 0 ↔
        (2500000 : Int) - 0 < timeMillisecond)) :=
  stored_latency_nonneg RunState.init 0 2500000 7 none MReachable.init (by norm_num)

/-- C2 counterexample: the claim that a tick arriving while a leg's
task is busy is dropped and never queued — so that no signal is pending
while a ping is in flight — is false. The channels have capacity 1: in
the reachable state after one ping tick and the client leg picking it
up, the client leg is busy with an empty buffer, and a second tick is
queued into the buffer rather than dropped. -/
theorem tick_queued_while_busy :
    ¬ (∀ (s : RunState) (t : Int), Reachable s →
        ((∃ tt, s.client.phase = .busy tt) →
          legDeliver s.client t = s.client ∧ s.client.buffer = none) ∧
        ((∃ tt, s.server.phase = .busy tt) →
          legDeliver s.server t = s.server ∧ s.server.buffer = none)) := by
  intro h
  have hr : Reachable busyWithEmptyBuffer :=
    Reachable.step .clientPickup
      (Reachable.step (.run (.tick .pingKey 1) none) Reachable.init)
  have h2 := ((h busyWithEmptyBuffer 2 hr).1 ⟨1, by decide⟩).1
  exact absurd h2 (by decide)

/-- C2 (amended): on each ping tick the delivery to each leg is
non-blocking into the leg's one-slot channel: the tick is queued
exactly when the buffer is empty — including while that leg's ping is
still in flight — and dropped exactly when the buffer already holds an
undelivered tick. Pings stay serialized per leg: a busy leg never picks
up another tick, so at most one ping per leg is in flight and at most
one tick is pending per leg. -/
theorem pingTick_nonblocking_delivery (s : RunState) (t : Int) (re : Option String)
    (b : Option Int) (tt l : Int) (hs : Reachable s) :
    (s.client.buffer = none →
      (sysStep s (.run (.tick .pingKey t) re)).client = { s.client with buffer := some t }) ∧
    (s.client.buffer ≠ none →
      (sysStep s (.run (.tick .pingKey t) re)).client = s.client) ∧
    (s.server.buffer = none →
      (sysStep s (.run (.tick .pingKey t) re)).server = { s.server with buffer := some t }) ∧
    (s.server.buffer ≠ none →
      (sysStep s (.run (.tick .pingKey t) re)).server = s.server) ∧
    legPickup ⟨b, .busy tt, l⟩ = ⟨b, .busy tt, l⟩ := by
  refine ⟨?_, ?_, ?_, ?_, rfl⟩
  · intro hbuf
    show legDeliver s.client t = _
    unfold legDeliver
    rw [hbuf]
  · intro hbuf
    cases hb : s.client.buffer with
    | none => exact absurd hb hbuf
    | some v =>
      show legDeliver s.client t = _
      unfold legDeliver
      rw [hb]
  · intro hbuf
    show legDeliver s.server t = _
    unfold legDeliver
    rw [hbuf]
  · intro hbuf
    cases hb : s.server.buffer with
    | none => exact absurd hb hbuf
    | some v =>
      show legDeliver s.server t = _
      unfold legDeliver
      rw [hb]

/-- Witness for `pingTick_nonblocking_delivery` at the reachable state
`busyWithEmptyBuffer` (client busy, buffer empty; server idle, tick
queued) and tick timestamp 2. -/
theorem pingTick_nonblocking_delivery_witness :
    (busyWithEmptyBuffer.client.buffer = none →
      (sysStep busyWithEmptyBuffer (.run (.tick .pingKey 2) none)).client =
        { busyWithEmptyBuffer.client with buffer := some 2 }) ∧
    (busyWithEmptyBuffer.client.buffer ≠ none →
      (sysStep busyWithEmptyBuffer (.run (.tick .pingKey 2) none)).client =
        busyWithEmptyBuffer.client) ∧
    (busyWithEmptyBuffer.server.buffer = none →
      (sysStep busyWithEmptyBuffer (.run (.tick .pingKey 2) none)).server =
        { busyWithEmptyBuffer.server with buffer := some 2 }) ∧
    (busyWithEmptyBuffer.server.buffer ≠ none →
      (sysStep busyWithEmptyBuffer (.run (.tick .pingKey 2) none)).server =
        busyWithEmptyBuffer.server) ∧
    legPickup ⟨some 9, .busy 4, 11⟩ = ⟨some 9, .busy 4, 11⟩ :=
  pingTick_nonblocking_delivery busyWithEmptyBuffer 2 none (some 9) 4 11
    (Reachable.step .clientPickup
      (Reachable.step (.run (.tick .pingKey 1) none) Reachable.init))

/-- C4: a signal whose `Ping` fails leaves the leg's stored latency
unchanged and the other leg's entire state unaffected (both directions),
and when the next ping on that leg succeeds, the new measurement is
stored. The final conjunct traces the full sequence on the client leg:
failed ping, next ping tick, pickup, successful ping. -/
theorem ping_failure_keeps_previous_value (s : RunState) (tickTime t2 now : Int)
    (hb : s.client.phase = .busy tickTime) (hbuf : s.client.buffer = none) :
    (sysStep s (.clientFinish .failed)).client.latency = s.client.latency ∧
    (sysStep s (.clientFinish .failed)).server = s.server ∧
    (sysStep s (.serverFinish .failed)).client = s.client ∧
    (sysStep (sysStep (sysStep (sysStep s (.clientFinish .failed))
        (.run (.tick .pingKey t2) none)) .clientPickup)
      (.clientFinish (.succeeded now))).client.latency
      = durationMilliseconds (now - t2) := by
  obtain ⟨⟨cb, cp, cl⟩, sv⟩ := s
  simp only at hb hbuf
  subst hb hbuf
  refine ⟨legFinish_failed_latency _, rfl, rfl, rfl⟩

/-- Witness for `ping_failure_keeps_previous_value` at the reachable
busy state, previous value 0, next tick at 10 and completion at
5000010. -/
theorem ping_failure_keeps_previous_value_witness :
    (sysStep busyWithEmptyBuffer (.clientFinish .failed)).client.latency =
      busyWithEmptyBuffer.client.latency ∧
    (sysStep busyWithEmptyBuffer (.clientFinish .failed)).server =
      busyWithEmptyBuffer.server ∧
    (sysStep busyWithEmptyBuffer (.serverFinish .failed)).client =
      busyWithEmptyBuffer.client ∧
    (sysStep (sysStep (sysStep (sysStep busyWithEmptyBuffer (.clientFinish .failed))
        (.run (.tick .pingKey 10) none)) .clientPickup)
      (.clientFinish (.succeeded 5000010))).client.latency
      = durationMilliseconds (5000010 - 10) :=
  ping_failure_keeps_previous_value busyWithEmptyBuffer 1 10 5000010 (by decide) (by decide)

/-- C6: in `WebSocketPinger.Ping`'s wait loop, a pong payload different
from the call's fresh token is discarded without completing the call; a
pong carrying the call's own token completes it with success exactly
then (the remaining events are never examined); an observed context
cancellation returns the cancellation error; success is only ever
returned when the matching pong was actually received; and a
cancellation that arrives before any matching pong yields the
cancellation error. (`token` stands for the `uuid.NewString()` payload
generated at the start of the call.) -/
theorem websocket_ping_token_matching (token p : String) (rest evs : List PongEvent)
    (hne : p ≠ token) :
    pingWait token (.pong p :: rest) = pingWait token rest ∧
    pingWait token (.pong token :: rest) = some .success ∧
    pingWait token (.cancelled :: rest) = some .cancelledErr ∧
    (pingWait token evs = some .success → PongEvent.pong token ∈ evs) ∧
    (PongEvent.pong token ∉ evs → pingWait token (evs ++ [.cancelled]) = some .cancelledErr) := by
  refine ⟨by simp [pingWait, hne], by simp [pingWait], rfl, ?_, ?_⟩
  · intro hsucc
    induction evs with
    | nil => simp [pingWait] at hsucc
    | cons ev rest ih =>
      cases ev with
      | pong q =>
        by_cases hq : q = token
        · subst hq
          exact List.mem_cons_self _ _
        · rw [show pingWait token (.pong q :: rest) = pingWait token rest by
            simp [pingWait, hq]] at hsucc
          exact List.mem_cons_of_mem _ (ih hsucc)
      | cancelled => simp [pingWait] at hsucc
  · intro hnotin
    induction evs with
    | nil => rfl
    | cons ev rest ih =>
      cases ev with
      | pong q =>
        have hq : q ≠ token := by
          intro hqe
          exact hnotin (hqe ▸ List.mem_cons_self _ _)
        simp only [List.cons_append, pingWait, if_neg hq]
        exact ih (fun hm => hnotin (List.mem_cons_of_mem _ hm))
      | cancelled => rfl

/-- Witness for `websocket_ping_token_matching` with token `"a"`, a
stray pong `"b"`, and the event list `[pong "a"]`. -/
theorem websocket_ping_token_matching_witness :
    pingWait "a" [.pong "b", .pong "a"] = pingWait "a" [.pong "a"] ∧
    pingWait "a" (.pong "a" :: [.pong "a"]) = some .success ∧
    pingWait "a" (.cancelled :: [.pong "a"]) = some .cancelledErr ∧
    (pingWait "a" [.pong "a"] = some .success → PongEvent.pong "a" ∈ [PongEvent.pong "a"]) ∧
    (PongEvent.pong "a" ∉ [PongEvent.pong "a"] →
      pingWait "a" ([PongEvent.pong "a"] ++ [.cancelled]) = some .cancelledErr) :=
  websocket_ping_token_matching "a" "b" [.pong "a"] [.pong "a"] (by decide)

/-- C7: `NewMonitor` fails exactly when `ClientPinger`, `ServerPinger`
or `Reporter` is missing; with all three present it succeeds, building
a monitor holding the supplied dependencies (with the clock defaulted
to the real clock when absent) and zeroed latencies, and the checked
configuration defaults a non-positive `PingInterval` to 8s, a
non-positive `ReportInterval` to 10s, and a missing `Clock` to the
real clock. -/
theorem NewMonitor_validation {P R C : Type} (cfg : MonitorConfig P R C) (rc : C)
    (cp sp : P) (r : R) :
    ((cfg.ClientPinger = none ∨ cfg.ServerPinger = none ∨ cfg.Reporter = none) →
      isError (NewMonitor rc cfg) = true) ∧
    (cfg.ClientPinger = some cp → cfg.ServerPinger = some sp → cfg.Reporter = some r →
      NewMonitor rc cfg = .ok
        { clientPinger := cp, serverPinger := sp, reporter := r,
          clock := cfg.Clock.getD rc, clientLatency := 0, serverLatency := 0 } ∧
      CheckAndSetDefaults rc cfg = .ok
        { cfg with
          PingInterval := if cfg.PingInterval ≤ 0 then 8 * timeSecond else cfg.PingInterval,
          ReportInterval := if cfg.ReportInterval ≤ 0 then 10 * timeSecond else cfg.ReportInterval,
          Clock := some (cfg.Clock.getD rc) }) := by
  constructor
  · intro h
    unfold NewMonitor CheckAndSetDefaults
    cases hc1 : cfg.ClientPinger <;> cases hc2 : cfg.ServerPinger <;>
      cases hc3 : cfg.Reporter <;> simp_all [isError]
  · intro h1 h2 h3
    constructor
    · unfold NewMonitor CheckAndSetDefaults
      simp [h1, h2, h3]
    · unfold CheckAndSetDefaults
      simp [h1, h2, h3]

/-- Witness for `NewMonitor_validation`: a config missing its client
pinger is rejected; the complete config (negative ping interval, zero
report interval, no clock) yields the zeroed monitor and the defaulted
checked configuration. -/
theorem NewMonitor_validation_witness :
    (cfgMissingClient.ClientPinger = none ∨ cfgMissingClient.ServerPinger = none ∨
      cfgMissingClient.Reporter = none) ∧
    isError (NewMonitor () cfgMissingClient) = true ∧
    NewMonitor () cfgComplete = .ok monitorZero ∧
    CheckAndSetDefaults () cfgComplete = .ok
      { cfgComplete with
        PingInterval := 8 * timeSecond, ReportInterval := 10 * timeSecond,
        Clock := some () } := by
  have hmiss := (NewMonitor_validation cfgMissingClient () () () ()).1 (Or.inl rfl)
  have hok := (NewMonitor_validation cfgComplete () () () ()).2 rfl rfl rfl
  refine ⟨Or.inl rfl, hmiss, ?_, ?_⟩
  · rw [hok.1]; rfl
  · rw [hok.2]; rfl

/-- C8: `GetStats` on a freshly constructed monitor returns the zero
snapshot, and the snapshot is a copy: a caller transforming its copy
(`mutateSnapshot`) leaves the monitor, and hence every later
`GetStats`, unchanged, while receiving its transformed value. -/
theorem GetStats_initial_zero {P R C : Type} (cfg : MonitorConfig P R C) (rc : C)
    (m : Monitor P R C) (f : Statistics → Statistics)
    (h : NewMonitor rc cfg = .ok m) :
    m.GetStats = { Client := 0, Server := 0 } ∧
    (mutateSnapshot m f).2.GetStats = m.GetStats ∧
    (mutateSnapshot m f).1 = f m.GetStats := by
  refine ⟨?_, rfl, rfl⟩
  unfold NewMonitor at h
  cases hc : CheckAndSetDefaults rc cfg with
  | error e => rw [hc] at h; exact absurd h (by simp)
  | ok c =>
    rw [hc] at h
    cases h1 : c.ClientPinger <;> cases h2 : c.ServerPinger <;>
      cases h3 : c.Reporter <;> cases h4 : c.Clock <;>
        simp [h1, h2, h3, h4] at h
    rw [← h]
    rfl

/-- Witness for `GetStats_initial_zero` at the complete sample
configuration and a snapshot mutation that overwrites both fields. -/
theorem GetStats_initial_zero_witness :
    monitorZero.GetStats = { Client := 0, Server := 0 } ∧
    (mutateSnapshot monitorZero (fun _ => ⟨99, 98⟩)).2.GetStats = monitorZero.GetStats ∧
    (mutateSnapshot monitorZero (fun _ => ⟨99, 98⟩)).1 =
      (fun _ => (⟨99, 98⟩ : Statistics)) monitorZero.GetStats :=
  GetStats_initial_zero cfgComplete () monitorZero (fun _ => ⟨99, 98⟩) rfl

/-- C9: on a report tick the run loop invokes the reporter exactly once
with the snapshot `GetStats()` returns at that instant, and it
continues looping whether or not the reporter returns an error; in
particular after a failed report the very next report tick invokes the
reporter again with the current snapshot. -/
theorem report_tick_reports_current_stats {P R C : Type} (s : RunState) (t t2 : Int)
    (e : String) (re : Option String) (m : Monitor P R C)
    (hc : m.clientLatency = s.client.latency) (hsrv : m.serverLatency = s.server.latency) :
    runIter s (.tick .reportingKey t) re = (s, [m.GetStats], .continueLoop) ∧
    runIter s (.tick .reportingKey t) (some e) = (s, [s.stats], .continueLoop) ∧
    (runIter (runIter s (.tick .reportingKey t) (some e)).1
        (.tick .reportingKey t2) re).2.1 = [m.GetStats] := by
  have hst : s.stats = m.GetStats := by
    unfold RunState.stats Monitor.GetStats
    rw [hc, hsrv]
  refine ⟨?_, by cases re <;> rfl, ?_⟩
  · cases re <;> simp [runIter, hst]
  · show (runIter s (.tick .reportingKey t2) re).2.1 = [m.GetStats]
    cases re <;> simp [runIter, hst]

/-- Witness for `report_tick_reports_current_stats` at the initial run
state and the zeroed monitor, with a failing report in between. -/
theorem report_tick_reports_current_stats_witness :
    runIter RunState.init (.tick .reportingKey 3) none =
      (RunState.init, [monitorZero.GetStats], .continueLoop) ∧
    runIter RunState.init (.tick .reportingKey 3) (some "report failed") =
      (RunState.init, [RunState.init.stats], .continueLoop) ∧
    (runIter (runIter RunState.init (.tick .reportingKey 3) (some "report failed")).1
        (.tick .reportingKey 4) none).2.1 = [monitorZero.GetStats] :=
  report_tick_reports_current_stats RunState.init 3 4 "report failed" none monitorZero
    rfl rfl

/-- C10: whether `CheckAndSetDefaults` fails depends only on the three
required dependencies — a zero or negative interval is never rejected —
and on success a non-positive `PingInterval` is replaced by 8s and a
non-positive `ReportInterval` by 10s (positive values are kept). -/
theorem CheckAndSetDefaults_interval_defaults {P R C : Type} (cfg : MonitorConfig P R C)
    (rc : C) (c' : MonitorConfig P R C) :
    (isError (CheckAndSetDefaults rc cfg) =
      (cfg.ClientPinger.isNone || cfg.ServerPinger.isNone || cfg.Reporter.isNone)) ∧
    (CheckAndSetDefaults rc cfg = .ok c' →
      c'.PingInterval = (if cfg.PingInterval ≤ 0 then 8 * timeSecond else cfg.PingInterval) ∧
      c'.ReportInterval =
        (if cfg.ReportInterval ≤ 0 then 10 * timeSecond else cfg.ReportInterval)) := by
  constructor
  · unfold CheckAndSetDefaults
    cases h1 : cfg.ClientPinger <;> cases h2 : cfg.ServerPinger <;>
      cases h3 : cfg.Reporter <;> simp [isError]
  · intro h
    unfold CheckAndSetDefaults at h
    cases h1 : cfg.ClientPinger <;> rw [h1] at h <;>
      cases h2 : cfg.ServerPinger <;> rw [h2] at h <;>
      cases h3 : cfg.Reporter <;> rw [h3] at h <;>
      simp at h
    rw [← h]
    exact ⟨rfl, rfl⟩

/-- Witness for `CheckAndSetDefaults_interval_defaults` at the complete
sample configuration, whose ping interval is -5 and report interval 0:
it is accepted and both intervals are defaulted. -/
theorem CheckAndSetDefaults_interval_defaults_witness :
    (isError (CheckAndSetDefaults () cfgComplete) =
      (cfgComplete.ClientPinger.isNone || cfgComplete.ServerPinger.isNone ||
        cfgComplete.Reporter.isNone)) ∧
    CheckAndSetDefaults () cfgComplete = .ok
      { cfgComplete with
        PingInterval := 8 * timeSecond, ReportInterval := 10 * timeSecond,
        Clock := some () } ∧
    ({ cfgComplete with
       PingInterval := 8 * timeSecond, ReportInterval := 10 * timeSecond,
       Clock := some () } : MonitorConfig Unit Unit Unit).PingInterval =
      (if cfgComplete.PingInterval ≤ 0 then 8 * timeSecond else cfgComplete.PingInterval) ∧
    ({ cfgComplete with
       PingInterval := 8 * timeSecond, ReportInterval := 10 * timeSecond,
       Clock := some () } : MonitorConfig Unit Unit Unit).ReportInterval =
      (if cfgComplete.ReportInterval ≤ 0 then 10 * timeSecond else cfgComplete.ReportInterval) := by
  have h := CheckAndSetDefaults_interval_defaults cfgComplete ()
    ({ cfgComplete with
       PingInterval := 8 * timeSecond, ReportInterval := 10 * timeSecond,
       Clock := some () })
  have hok : CheckAndSetDefaults () cfgComplete = .ok
      { cfgComplete with
        PingInterval := 8 * timeSecond, ReportInterval := 10 * timeSecond,
        Clock := some () } := rfl
  exact ⟨h.1, hok, (h.2 hok).1, (h.2 hok).2⟩

end Latency
